import Mathlib

/-!
Shallow embedding of the `database` repository (a networked persistent
key-value store) for checking its natural-language specification.

Byte strings are modelled as `List Nat` (each element a byte value).
The embedding fixes the host to a little-endian platform (the source
targets Linux/x86-64: it uses `sysconf(_SC_PAGE_SIZE)` and POSIX sockets),
so a `memcpy` of a multi-byte integer emits its bytes least-significant
first.
-/

namespace DatabaseModel

/-- A byte string: the model of `std::string` (and of the mapped-segment
`String`) as a list of byte values. -/
abbrev Str := List Nat

/-- Model of constructing a string from `s.c_str()`: the C string conversion
keeps only the bytes before the first NUL (byte 0).  `Database::ins`,
`upd`, `del` and `get` all build their mapped-segment keys and values
this way (`String key(rawKey.c_str(), ...)`). -/
def cStr : Str → Str
  | [] => []
  | b :: rest => if b = 0 then [] else b :: cStr rest

/-- The `database::Error` enum of database.h (underlying type `uint8_t`,
enumerators in declaration order starting at 0). -/
inductive Error where
  | NONE
  | INSERT_KEY_ALREADY_EXISTS
  | UPDATE_KEY_NOT_FOUND
  | UPDATE_VALUE_ALREADY_EXISTS
  | DELETE_KEY_NOT_FOUND
  | GET_KEY_NOT_FOUND
  | INVALID_KEY_LENGTH
  | INVALID_VALUE_LENGTH
  deriving DecidableEq, Repr

/-- The `database::Operation` enum of database.h (underlying type
`uint8_t`: INSERT=0, UPDATE=1, DELETE=2, GET=3). -/
inductive Operation where
  | INSERT
  | UPDATE
  | DELETE
  | GET
  deriving DecidableEq, Repr

/-- The mapped multi-index container `Db`: a sequence of `Item`s
(key, value), hash-indexed with unique keys.  The uniqueness invariant
(`hashed_unique`) is carried as a `Nodup` hypothesis where a proof
needs it. -/
abbrev Store := List (Str × Str)

/-- Model of `index.find(key)` on the hashed index: the value of the
item whose key equals `key`, if present. -/
def findVal : Store → Str → Option Str
  | [], _ => none
  | (k, v) :: rest, key => if k = key then some v else findVal rest key

/-- Model of `index.erase(it)` for the iterator returned by `find`:
removes the (unique) item with the given key. -/
def eraseItem : Store → Str → Store
  | [], _ => []
  | (k, v) :: rest, key => if k = key then rest else (k, v) :: eraseItem rest key

/-- Model of `index.modify(it, ...)` replacing the found item's value. -/
def modifyItem : Store → Str → Str → Store
  | [], _, _ => []
  | (k, v) :: rest, key, val =>
      if k = key then (k, val) :: rest else (k, v) :: modifyItem rest key val

/-- `Database::ins` (database.cpp:130-144): converts both arguments with
`c_str()`, looks the key up, reports `INSERT_KEY_ALREADY_EXISTS` if found,
otherwise emplaces the new item and reports `NONE`. -/
def ins (db : Store) (rawKey rawValue : Str) : Error × Store :=
  let key := cStr rawKey
  let value := cStr rawValue
  match findVal db key with
  | some _ => (Error.INSERT_KEY_ALREADY_EXISTS, db)
  | none => (Error.NONE, db ++ [(key, value)])

/-- `Database::upd` (database.cpp:146-161): converts both arguments with
`c_str()`; missing key reports `UPDATE_KEY_NOT_FOUND`, equal stored value
reports `UPDATE_VALUE_ALREADY_EXISTS`, otherwise the value is replaced. -/
def upd (db : Store) (rawKey rawValue : Str) : Error × Store :=
  let key := cStr rawKey
  let value := cStr rawValue
  match findVal db key with
  | none => (Error.UPDATE_KEY_NOT_FOUND, db)
  | some stored =>
      if stored = value then (Error.UPDATE_VALUE_ALREADY_EXISTS, db)
      else (Error.NONE, modifyItem db key value)

/-- `Database::del` (database.cpp:163-176): converts the key with
`c_str()`; missing key reports `DELETE_KEY_NOT_FOUND`, otherwise the item
is erased. -/
def del (db : Store) (rawKey : Str) : Error × Store :=
  let key := cStr rawKey
  match findVal db key with
  | none => (Error.DELETE_KEY_NOT_FOUND, db)
  | some _ => (Error.NONE, eraseItem db key)

/-- `Database::get` (database.cpp:178-191): converts the key with
`c_str()`; the second component models the `Value&` out-parameter (left
at its incoming contents on a miss, assigned the stored value on a hit);
the third component is the store, which `get` never writes. -/
def get (db : Store) (rawKey : Str) (value : Str) : Error × Str × Store :=
  let key := cStr rawKey
  match findVal db key with
  | none => (Error.GET_KEY_NOT_FOUND, value, db)
  | some stored => (Error.NONE, stored, db)

/-! ## Codec: Writer and Reader of database.h -/

/-- `sizeof(uint16_t)` in bytes, as the C++ `sizeof` operator yields. -/
def sizeofU16 : Nat := 2

/-- `sizeof(uint8_t)` in bytes. -/
def sizeofU8 : Nat := 1

/-- A genuine 16-bit byte swap, what `htons`/`ntohs` compute on a
little-endian host. -/
def htons16 (v : Nat) : Nat := (v % 256) * 256 + (v / 256) % 256

/-- Embedding of `hton<uint16_t>` (database.h:93-105).  The source
compares `sizeof(T)` — which is 2 for `uint16_t` — against 16, 32 and 64,
so no swapping branch is ever taken and the value is returned unchanged.
(The 32- and 64-bit branches, which also cannot match `sizeof = 2`, are
discarded `if constexpr` branches and are elided here.) -/
def hton16 (v : Nat) : Nat :=
  if sizeofU16 = 16 then htons16 v else v

/-- Embedding of `ntoh<uint16_t>` (database.h:79-91), identical in
structure to `hton<uint16_t>`: `sizeof(uint16_t) = 2` matches none of
16/32/64, so the value passes through unswapped. -/
def ntoh16 (v : Nat) : Nat :=
  if sizeofU16 = 16 then htons16 v else v

/-- Embedding of `hton`/`ntoh` for one-byte types (`uint8_t`, the
`Operation` and `Error` tags): `sizeof = 1` matches no branch. -/
def hton8 (v : Nat) : Nat :=
  if sizeofU8 = 16 then v else v

/-- The two bytes a `memcpy` of a `uint16_t` produces on the (little-endian)
host, least-significant byte first. -/
def bytesLE16 (v : Nat) : List Nat := [v % 256, (v / 256) % 256]

/-- `Writer::operator()` for a one-byte value: `hton` (identity), then
`memcpy` of the single byte at the end of the buffer. -/
def writeU8 (buf : List Nat) (v : Nat) : List Nat :=
  buf ++ [hton8 v % 256]

/-- `Writer::operator()` for a `uint16_t`: `hton` the value (which, per
`hton16`, does not swap), then `memcpy` its two bytes in host order. -/
def writeU16 (buf : List Nat) (v : Nat) : List Nat :=
  buf ++ bytesLE16 (hton16 v)

/-- `Writer::operator()(const std::string &)` (database.h:146-153):
writes `static_cast<uint16_t>(val.length())` — the length modulo 2^16 —
through the `uint16_t` overload, then appends all `val.length()` bytes of
the string.  There is no length check and no failure path. -/
def writeString (buf : List Nat) (s : Str) : List Nat :=
  writeU16 buf (s.length % 65536) ++ s

/-- The fusion-defined `database::Request`: `(Operation operation,
Key key, Value value)`.  The tag field is kept as its underlying
`uint8_t` value, since the codec reads and writes the raw byte with no
validation (any byte value inhabits `enum class Operation : uint8_t`). -/
structure Request where
  operation : Nat
  key : Str
  value : Str
  deriving DecidableEq, Repr

/-- The fusion-defined `database::Response`: `(Operation operation,
Error error, Value value)`, tag fields as raw bytes as in `Request`. -/
structure Response where
  operation : Nat
  error : Nat
  value : Str
  deriving DecidableEq, Repr

/-- `boost::fusion::for_each(request, writer)`: the Writer applied to the
three fields of a Request in declaration order. -/
def encodeRequest (r : Request) : List Nat :=
  writeString (writeString (writeU8 [] r.operation) r.key) r.value

/-- `boost::fusion::for_each(response, writer)`: the Writer applied to the
three fields of a Response in declaration order. -/
def encodeResponse (r : Response) : List Nat :=
  writeString (writeU8 (writeU8 [] r.operation) r.error) r.value

/-- `Reader::operator()` for a one-byte value: load the byte, `ntoh`
(identity), advance.  Reading past the end of the buffer is undefined
behaviour in the source (no bounds check exists); the model reports it
as `none`. -/
def readU8 : List Nat → Option (Nat × List Nat)
  | [] => none
  | b :: rest => some (hton8 b, rest)

/-- `Reader::operator()` for a `uint16_t`: load two bytes in host order,
`ntoh16` (identity), advance.  Out-of-bounds reads are undefined behaviour
in the source, modelled as `none`. -/
def readU16 : List Nat → Option (Nat × List Nat)
  | b0 :: b1 :: rest => some (ntoh16 (b0 + 256 * b1), rest)
  | _ => none

/-- `Reader::operator()(std::string &)` (database.h:117-123): read a
`uint16_t` length, then take that many bytes.  The source copies `length`
bytes unconditionally; when fewer remain that read is undefined behaviour,
modelled as `none`. -/
def readString (buf : List Nat) : Option (Str × List Nat) :=
  match readU16 buf with
  | none => none
  | some (len, rest) =>
      if len ≤ rest.length then some (rest.take len, rest.drop len) else none

/-- `boost::fusion::for_each(request, reader)`: the Reader applied to the
three Request fields in declaration order.  No tag validation occurs:
whatever byte is read becomes the `operation` field. -/
def decodeRequest (buf : List Nat) : Option Request :=
  match readU8 buf with
  | none => none
  | some (op, r1) =>
      match readString r1 with
      | none => none
      | some (k, r2) =>
          match readString r2 with
          | none => none
          | some (v, _) => some ⟨op, k, v⟩

/-- `boost::fusion::for_each(response, reader)`: the Reader applied to the
three Response fields in declaration order, with no tag validation. -/
def decodeResponse (buf : List Nat) : Option Response :=
  match readU8 buf with
  | none => none
  | some (op, r1) =>
      match readU8 r1 with
      | none => none
      | some (e, r2) =>
          match readString r2 with
          | none => none
          | some (v, _) => some ⟨op, e, v⟩

/-- The declared enumerators of `database::Operation` as underlying bytes:
INSERT=0, UPDATE=1, DELETE=2, GET=3.  Any other byte is not a declared
enumerator. -/
def operationOfTag (b : Nat) : Option Operation :=
  if b = 0 then some Operation.INSERT
  else if b = 1 then some Operation.UPDATE
  else if b = 2 then some Operation.DELETE
  else if b = 3 then some Operation.GET
  else none

/-- The declared enumerators of `database::Error` as underlying bytes,
in declaration order starting at 0. -/
def errorOfTag (b : Nat) : Option Error :=
  if b = 0 then some Error.NONE
  else if b = 1 then some Error.INSERT_KEY_ALREADY_EXISTS
  else if b = 2 then some Error.UPDATE_KEY_NOT_FOUND
  else if b = 3 then some Error.UPDATE_VALUE_ALREADY_EXISTS
  else if b = 4 then some Error.DELETE_KEY_NOT_FOUND
  else if b = 5 then some Error.GET_KEY_NOT_FOUND
  else if b = 6 then some Error.INVALID_KEY_LENGTH
  else if b = 7 then some Error.INVALID_VALUE_LENGTH
  else none

/-! ## Client (Client.cpp) -/

/-- `MAX_KEY_LENGTH` of database.h. -/
def MAX_KEY_LENGTH : Nat := 1024

/-- `MAX_VALUE_LENGTH` of database.h. -/
def MAX_VALUE_LENGTH : Nat := 1048576

/-- `database::isValidKey` (database.h:67-69). -/
def isValidKey (key : Str) : Bool := key.length ≤ MAX_KEY_LENGTH

/-- `database::isValidValue` (database.h:75-77). -/
def isValidValue (value : Str) : Bool := value.length ≤ MAX_VALUE_LENGTH

/-- The Client's fields relevant to `send`: `lastEndpoint_` (endpoints
modelled as opaque naturals) and `m_isConnected`. -/
structure ClientState where
  lastEndpoint : Nat
  isConnected : Bool
  deriving DecidableEq, Repr

/-- The socket operations `Client::send` can perform, recorded as a trace:
a connect attempt to an endpoint, a framed request write, a framed
response read. -/
inductive NetAction where
  | connectTo (endpoint : Nat)
  | writeFrame (bytes : List Nat)
  | readFrame
  deriving DecidableEq, Repr

/-- Outcomes the network grants to the socket calls of one `send`
(whether `connect`, the writes of `Client::write`, the reads of
`Client::read` set an error code). -/
structure NetBehavior where
  connectOk : Bool
  writeOk : Bool
  readOk : Bool
  deriving DecidableEq, Repr

/-- The `std::invalid_argument` exceptions `Client::send` throws during
validation, distinguished by which length check failed. -/
inductive SendException where
  | invalidKeyLength
  | invalidValueLength
  deriving DecidableEq, Repr

/-- `Client::send` (Client.cpp:11-46).  Returns the Client state after
the call, the trace of socket operations attempted, and either the thrown
exception or the returned error code (`true` models a truthy
`boost::system::error_code`).  The source validates the key and then the
value before touching `lastEndpoint_`, the socket or `m_isConnected`;
on a thrown exception the state is whatever had been mutated so far. -/
def send (st : ClientState) (endpoint : Nat) (req : Request)
    (net : NetBehavior) :
    ClientState × List NetAction × Except SendException Bool :=
  if ¬ isValidKey req.key then
    (st, [], Except.error SendException.invalidKeyLength)
  else if ¬ isValidValue req.value then
    (st, [], Except.error SendException.invalidValueLength)
  else
    let st1 :=
      if endpoint ≠ st.lastEndpoint then { st with lastEndpoint := endpoint }
      else st
    let connected₀ := st1.isConnected
    let connectActs :=
      if ¬ connected₀ then [NetAction.connectTo st1.lastEndpoint] else []
    let connected :=
      if ¬ connected₀ then net.connectOk else true
    if connected then
      let acts := connectActs ++ [NetAction.writeFrame (encodeRequest req)]
      if ¬ net.writeOk then
        ({ st1 with isConnected := false }, acts, Except.ok true)
      else
        let acts := acts ++ [NetAction.readFrame]
        if ¬ net.readOk then
          ({ st1 with isConnected := false }, acts, Except.ok true)
        else
          ({ st1 with isConnected := true }, acts, Except.ok false)
    else
      (st1, connectActs, Except.ok true)

/-! ## Stats (Server.h, Server.cpp) -/

/-- The modulus of the `std::atomic<size_t>` counters (64-bit `size_t`). -/
def U64 : Nat := 2 ^ 64

/-- The Stats fields `update` touches: `totalItemsInDb_` and the
per-Operation `(successful, failed)` counter pairs.  The
`std::unordered_map` with value-initialised entries is modelled as a total
function (absent operations carry `(0, 0)`). -/
structure StatsState where
  totalItemsInDb : Nat
  counters : Operation → Nat × Nat

/-- `Stats::update` (Server.cpp:16-30): increments `failed` of the
operation when the error is not NONE and `successful` otherwise; then
increments `totalItemsInDb_` on a successful INSERT and decrements it on
a successful DELETE.  All counters are 64-bit `size_t` values, so every
step is taken modulo 2^64 (a decrement of 0 wraps). -/
def statsUpdate (st : StatsState) (op : Operation) (err : Error) : StatsState :=
  let failed := err ≠ Error.NONE
  let counters := fun o =>
    if o = op then
      if failed then ((st.counters op).1, ((st.counters op).2 + 1) % U64)
      else (((st.counters op).1 + 1) % U64, (st.counters op).2)
    else st.counters o
  let ti :=
    if op = Operation.INSERT ∧ ¬ failed then (st.totalItemsInDb + 1) % U64
    else st.totalItemsInDb
  let ti :=
    if op = Operation.DELETE ∧ ¬ failed then (ti + (U64 - 1)) % U64
    else ti
  { totalItemsInDb := ti, counters := counters }

/-- A Stats state with every counter zero, for concrete evaluations. -/
def stats0 : StatsState := ⟨0, fun _ => (0, 0)⟩

/-! ## Helper lemmas about the store model -/

theorem cStr_eq_self {s : Str} (h : ∀ b ∈ s, b ≠ 0) : cStr s = s := by
  induction s with
  | nil => rfl
  | cons a t ih =>
      have ha : a ≠ 0 := h a (List.mem_cons_self a t)
      simp [cStr, ha, ih fun b hb => h b (List.mem_cons_of_mem a hb)]

theorem findVal_append_self {db : Store} {k v : Str}
    (h : findVal db k = none) : findVal (db ++ [(k, v)]) k = some v := by
  induction db with
  | nil => simp [findVal]
  | cons p rest ih =>
      obtain ⟨k', v'⟩ := p
      by_cases hk : k' = k
      · simp [findVal, hk] at h
      · simp only [findVal, hk, if_false, List.cons_append] at h ⊢
        simp [findVal, hk]
        exact ih h

theorem findVal_append_other {db : Store} {k v k2 : Str} (h : k2 ≠ k) :
    findVal (db ++ [(k, v)]) k2 = findVal db k2 := by
  induction db with
  | nil => simp [findVal, Ne.symm h]
  | cons p rest ih =>
      obtain ⟨k', v'⟩ := p
      by_cases hk : k' = k2 <;> simp [findVal, hk, ih]

theorem findVal_modify_self {db : Store} {k v w : Str}
    (h : findVal db k = some w) :
    findVal (modifyItem db k v) k = some v := by
  induction db with
  | nil => simp [findVal] at h
  | cons p rest ih =>
      obtain ⟨k', v'⟩ := p
      by_cases hk : k' = k
      · simp [modifyItem, findVal, hk]
      · simp only [findVal, hk, if_false] at h
        simp [modifyItem, findVal, hk, ih h]

theorem findVal_modify_other {db : Store} {k v k2 : Str} (h : k2 ≠ k) :
    findVal (modifyItem db k v) k2 = findVal db k2 := by
  induction db with
  | nil => simp [modifyItem]
  | cons p rest ih =>
      obtain ⟨k', v'⟩ := p
      by_cases hk : k' = k
      · subst hk
        simp [modifyItem, findVal, Ne.symm h]
      · by_cases hk2 : k' = k2
        · subst hk2
          simp [modifyItem, findVal, hk, h]
        · simp [modifyItem, findVal, hk, hk2, ih]

theorem findVal_eq_none_of_not_mem {db : Store} {k : Str}
    (h : k ∉ db.map Prod.fst) : findVal db k = none := by
  induction db with
  | nil => rfl
  | cons p rest ih =>
      obtain ⟨k', v'⟩ := p
      simp only [List.map_cons, List.mem_cons] at h
      push_neg at h
      simp [findVal, Ne.symm h.1, ih h.2]

theorem findVal_erase_self {db : Store} {k : Str}
    (h : (db.map Prod.fst).Nodup) :
    findVal (eraseItem db k) k = none := by
  induction db with
  | nil => rfl
  | cons p rest ih =>
      obtain ⟨k', v'⟩ := p
      simp only [List.map_cons, List.nodup_cons] at h
      by_cases hk : k' = k
      · subst hk
        exact Eq.trans (by simp [eraseItem]) (findVal_eq_none_of_not_mem h.1)
      · simp [eraseItem, findVal, hk, ih h.2]

theorem findVal_erase_other {db : Store} {k k2 : Str} (h : k2 ≠ k) :
    findVal (eraseItem db k) k2 = findVal db k2 := by
  induction db with
  | nil => rfl
  | cons p rest ih =>
      obtain ⟨k', v'⟩ := p
      by_cases hk : k' = k
      · subst hk
        simp [eraseItem, findVal, Ne.symm h]
      · by_cases hk2 : k' = k2
        · subst hk2
          simp [eraseItem, findVal, hk]
        · simp [eraseItem, findVal, hk, hk2, ih]

/-! ## Claim C1 -/

/-- C1 counterexample: the claim fails for keys containing an embedded NUL
byte.  With the store holding the single item (key [97], value [49]),
no item with key [97, 0] exists, yet `ins` with key [97, 0] reports
`INSERT_KEY_ALREADY_EXISTS` and inserts nothing, because `Database::ins`
converts the key through `c_str()` and therefore looks up the truncated
key [97]. -/
theorem ins_nul_truncation_cex :
    findVal [([97], [49])] [97, 0] = none ∧
    ins [([97], [49])] [97, 0] [50] =
      (Error.INSERT_KEY_ALREADY_EXISTS, [([97], [49])]) := by
  decide

/-- C1 (amended to keys and values free of NUL bytes, which the
counterexample forces): on a store with unique keys, `ins` reports
`INSERT_KEY_ALREADY_EXISTS` and changes nothing when an item with key k
exists and otherwise inserts (k, v) and reports NONE; `upd` reports
`UPDATE_KEY_NOT_FOUND` when k is missing, `UPDATE_VALUE_ALREADY_EXISTS`
when the stored value equals v byte-exactly, and otherwise replaces the
stored value with v and reports NONE; `del` removes the item with key k
and reports NONE, or `DELETE_KEY_NOT_FOUND` when it is missing; `get`
yields (NONE, stored value) when an item with key k exists and
(GET_KEY_NOT_FOUND, "") when it is missing (the out-parameter having
been passed in empty, as `Session::handleRequest` does). -/
theorem store_ops_spec_nulfree (db : Store) (k v : Str)
    (hnd : (db.map Prod.fst).Nodup)
    (hk : ∀ b ∈ k, b ≠ 0) (hv : ∀ b ∈ v, b ≠ 0) :
    ((findVal db k).isSome →
      ins db k v = (Error.INSERT_KEY_ALREADY_EXISTS, db)) ∧
    (findVal db k = none →
      (ins db k v).1 = Error.NONE ∧
      findVal (ins db k v).2 k = some v ∧
      ∀ k2, k2 ≠ k → findVal (ins db k v).2 k2 = findVal db k2) ∧
    (findVal db k = none → upd db k v = (Error.UPDATE_KEY_NOT_FOUND, db)) ∧
    (findVal db k = some v →
      upd db k v = (Error.UPDATE_VALUE_ALREADY_EXISTS, db)) ∧
    (∀ w, findVal db k = some w → w ≠ v →
      (upd db k v).1 = Error.NONE ∧
      findVal (upd db k v).2 k = some v ∧
      ∀ k2, k2 ≠ k → findVal (upd db k v).2 k2 = findVal db k2) ∧
    (findVal db k = none → del db k = (Error.DELETE_KEY_NOT_FOUND, db)) ∧
    ((findVal db k).isSome →
      (del db k).1 = Error.NONE ∧
      findVal (del db k).2 k = none ∧
      ∀ k2, k2 ≠ k → findVal (del db k).2 k2 = findVal db k2) ∧
    (∀ w, findVal db k = some w → get db k [] = (Error.NONE, w, db)) ∧
    (findVal db k = none → get db k [] = (Error.GET_KEY_NOT_FOUND, [], db)) := by
  have hck : cStr k = k := cStr_eq_self hk
  have hcv : cStr v = v := cStr_eq_self hv
  refine ⟨?_, ?_, ?_, ?_, ?_, ?_, ?_, ?_, ?_⟩
  · intro hs
    cases hfind : findVal db k with
    | none => simp [hfind] at hs
    | some s => simp [ins, hck, hcv, hfind]
  · intro hfind
    refine ⟨by simp [ins, hck, hcv, hfind], ?_, ?_⟩
    · simp [ins, hck, hcv, hfind, findVal_append_self hfind]
    · intro k2 hk2
      simp [ins, hck, hcv, hfind, findVal_append_other hk2]
  · intro hfind
    simp [upd, hck, hcv, hfind]
  · intro hfind
    simp [upd, hck, hcv, hfind]
  · intro w hfind hw
    refine ⟨by simp [upd, hck, hcv, hfind, hw], ?_, ?_⟩
    · simp [upd, hck, hcv, hfind, hw, findVal_modify_self hfind]
    · intro k2 hk2
      simp [upd, hck, hcv, hfind, hw, findVal_modify_other hk2]
  · intro hfind
    simp [del, hck, hfind]
  · intro hs
    cases hfind : findVal db k with
    | none => simp [hfind] at hs
    | some s =>
        refine ⟨by simp [del, hck, hfind], ?_, ?_⟩
        · simp [del, hck, hfind, findVal_erase_self hnd]
        · intro k2 hk2
          simp [del, hck, hfind, findVal_erase_other hk2]
  · intro w hfind
    simp [get, hck, hfind]
  · intro hfind
    simp [get, hck, hfind]

/-- Witness for `store_ops_spec_nulfree` at concrete NUL-free inputs. -/
theorem store_ops_spec_nulfree_witness :
    ins [([97], [49])] [97] [50] =
      (Error.INSERT_KEY_ALREADY_EXISTS, [([97], [49])]) ∧
    (ins [([97], [49])] [98] [50]).1 = Error.NONE ∧
    findVal (ins [([97], [49])] [98] [50]).2 [98] = some [50] ∧
    get [([97], [49])] [98] [] =
      (Error.GET_KEY_NOT_FOUND, [], [([97], [49])]) := by
  have h := store_ops_spec_nulfree [([97], [49])] [97] [50]
    (by decide) (by decide) (by decide)
  have h2 := store_ops_spec_nulfree [([97], [49])] [98] [50]
    (by decide) (by decide) (by decide)
  exact ⟨h.1 (by decide), (h2.2.1 (by decide)).1, (h2.2.1 (by decide)).2.1,
    h2.2.2.2.2.2.2.2.2 (by decide)⟩

/-! ## Claim C6 -/

/-- C6: whenever a store operation reports an error other than NONE, the
store contents are unchanged.  `ins`, `upd` and `del` return the incoming
store on every error path, and `get` never writes the store (its store
component is the input store on every path). -/
theorem store_error_no_mutation (db : Store) (k v w : Str) :
    ((ins db k v).1 ≠ Error.NONE → (ins db k v).2 = db) ∧
    ((upd db k v).1 ≠ Error.NONE → (upd db k v).2 = db) ∧
    ((del db k).1 ≠ Error.NONE → (del db k).2 = db) ∧
    ((get db k w).1 ≠ Error.NONE → (get db k w).2.2 = db) := by
  refine ⟨?_, ?_, ?_, ?_⟩
  · intro h
    cases hfind : findVal db (cStr k) with
    | none => simp [ins, hfind] at h
    | some s => simp [ins, hfind]
  · intro h
    cases hfind : findVal db (cStr k) with
    | none => simp [upd, hfind]
    | some s =>
        by_cases hs : s = cStr v
        · simp [upd, hfind, hs]
        · simp [upd, hfind, hs] at h
  · intro h
    cases hfind : findVal db (cStr k) with
    | none => simp [del, hfind]
    | some s => simp [del, hfind] at h
  · intro h
    cases hfind : findVal db (cStr k) with
    | none => simp [get, hfind]
    | some s => simp [get, hfind]

/-- Witness for `store_error_no_mutation` at concrete inputs on which each
operation fails. -/
theorem store_error_no_mutation_witness :
    (ins [([97], [49])] [97] [50]).2 = [([97], [49])] ∧
    (upd [([97], [49])] [98] [50]).2 = [([97], [49])] ∧
    (del [([97], [49])] [98]).2 = [([97], [49])] ∧
    (get [([97], [49])] [98] []).2.2 = [([97], [49])] :=
  ⟨(store_error_no_mutation [([97], [49])] [97] [50] []).1 (by decide),
   (store_error_no_mutation [([97], [49])] [98] [50] []).2.1 (by decide),
   (store_error_no_mutation [([97], [49])] [98] [50] []).2.2.1 (by decide),
   (store_error_no_mutation [([97], [49])] [98] [50] []).2.2.2 (by decide)⟩

/-! ## Claim C7 -/

/-- C7 counterexample: the claim fails for values containing an embedded
NUL byte.  Starting from the empty store, inserting key [107] with value
[97, 0, 98] (length 3, within all limits) succeeds, but `get` then
returns the value [97] — the NUL-truncated prefix stored by
`Database::ins` via `c_str()` — and not the inserted value. -/
theorem ins_get_nul_value_cex :
    ([107] : Str).length ≤ MAX_KEY_LENGTH ∧
    ([97, 0, 98] : Str).length ≤ MAX_VALUE_LENGTH ∧
    findVal [] [107] = none ∧
    (ins [] [107] [97, 0, 98]).1 = Error.NONE ∧
    get (ins [] [107] [97, 0, 98]).2 [107] [] =
      (Error.NONE, [97], (ins [] [107] [97, 0, 98]).2) ∧
    ([97] : Str) ≠ [97, 0, 98] := by
  decide

/-- C7 (amended to keys and values free of NUL bytes, which the
counterexample forces): for every NUL-free key and value within the
length limits, starting from any store with no item of key k, `ins`
succeeds with NONE and a following `get` of k returns NONE together with
exactly the inserted value. -/
theorem ins_then_get_nulfree (db : Store) (k v : Str)
    (hk : ∀ b ∈ k, b ≠ 0) (hv : ∀ b ∈ v, b ≠ 0)
    (hklen : k.length ≤ MAX_KEY_LENGTH)
    (hvlen : v.length ≤ MAX_VALUE_LENGTH)
    (hmiss : findVal db k = none) :
    (ins db k v).1 = Error.NONE ∧
    get (ins db k v).2 k [] = (Error.NONE, v, (ins db k v).2) := by
  have hck : cStr k = k := cStr_eq_self hk
  have hcv : cStr v = v := cStr_eq_self hv
  constructor
  · simp [ins, hck, hcv, hmiss]
  · simp [ins, get, hck, hcv, hmiss, findVal_append_self hmiss]

/-- Witness for `ins_then_get_nulfree` at concrete inputs. -/
theorem ins_then_get_nulfree_witness :
    (ins [] [107] [118]).1 = Error.NONE ∧
    get (ins [] [107] [118]).2 [107] [] =
      (Error.NONE, [118], (ins [] [107] [118]).2) :=
  ins_then_get_nulfree [] [107] [118]
    (by decide) (by decide) (by decide) (by decide) (by decide)

/-! ## Claim C10 -/

/-- C10: every store operation converts its key and value arguments with
`c_str()`, so only the prefix up to the first NUL byte matters.  Two keys
(or two values) with the same NUL-truncated prefix — in particular, two
strings differing only at or after an embedded NUL byte — are treated
identically by `ins`, `upd`, `del` and `get`, and whenever `ins` or `upd`
succeeds the value stored under the truncated key is the NUL-truncated
prefix of the value passed in. -/
theorem store_ops_cstr_semantics (db : Store) (k k1 k2 v v1 v2 w : Str)
    (hkk : cStr k1 = cStr k2) (hvv : cStr v1 = cStr v2) :
    (ins db k1 v1 = ins db k2 v2 ∧
     upd db k1 v1 = upd db k2 v2 ∧
     del db k1 = del db k2 ∧
     get db k1 w = get db k2 w) ∧
    ((ins db k v).1 = Error.NONE →
      findVal (ins db k v).2 (cStr k) = some (cStr v)) ∧
    ((upd db k v).1 = Error.NONE →
      findVal (upd db k v).2 (cStr k) = some (cStr v)) := by
  refine ⟨⟨?_, ?_, ?_, ?_⟩, ?_, ?_⟩
  · simp [ins, hkk, hvv]
  · simp [upd, hkk, hvv]
  · simp [del, hkk]
  · simp [get, hkk]
  · intro h
    cases hfind : findVal db (cStr k) with
    | some s => simp [ins, hfind] at h
    | none => simp [ins, hfind, findVal_append_self hfind]
  · intro h
    cases hfind : findVal db (cStr k) with
    | none => simp [upd, hfind] at h
    | some s =>
        by_cases hs : s = cStr v
        · simp [upd, hfind, hs] at h
        · simp [upd, hfind, hs, findVal_modify_self hfind]

/-- Witness for `store_ops_cstr_semantics`: the keys [97,0,98] and
[97,0,99] differ only after their NUL byte, as do the values [49,0,1]
and [49,0,2]; a successful insert of value [50,0,3] stores its
NUL-truncated prefix [50]. -/
theorem store_ops_cstr_semantics_witness :
    ins [] [97, 0, 98] [49, 0, 1] = ins [] [97, 0, 99] [49, 0, 2] ∧
    findVal (ins [] [107, 0, 1] [50, 0, 3]).2 (cStr [107, 0, 1]) =
      some (cStr [50, 0, 3]) := by
  have h := store_ops_cstr_semantics [] [107, 0, 1] [97, 0, 98] [97, 0, 99]
    [50, 0, 3] [49, 0, 1] [49, 0, 2] [] (by decide) (by decide)
  exact ⟨h.1.1, h.2.1 (by decide)⟩

/-! ## Helper lemmas about the codec model -/

theorem hton16_eq (v : Nat) : hton16 v = v := by
  simp [hton16, sizeofU16]

theorem ntoh16_eq (v : Nat) : ntoh16 v = v := by
  simp [ntoh16, sizeofU16]

theorem hton8_eq (v : Nat) : hton8 v = v := by
  simp [hton8]

theorem writeU8_eq (buf : List Nat) (v : Nat) :
    writeU8 buf v = buf ++ [v % 256] := by
  simp [writeU8, hton8_eq]

theorem writeString_eq (buf : List Nat) (s : Str) :
    writeString buf s = buf ++ (bytesLE16 (s.length % 65536) ++ s) := by
  simp [writeString, writeU16, hton16_eq]

theorem readU8_cons (b : Nat) (rest : List Nat) :
    readU8 (b :: rest) = some (b, rest) := by
  simp [readU8, hton8_eq]

theorem readU16_bytesLE16 {v : Nat} (rest : List Nat) (h : v < 65536) :
    readU16 (bytesLE16 v ++ rest) = some (v, rest) := by
  simp only [bytesLE16, List.cons_append, List.nil_append, readU16, ntoh16_eq]
  congr 1
  congr 1
  omega

theorem readString_bytes (s : Str) (rest : List Nat) (h : s.length ≤ 65535) :
    readString ((bytesLE16 (s.length % 65536) ++ s) ++ rest) = some (s, rest) := by
  have hlt : s.length % 65536 = s.length := Nat.mod_eq_of_lt (by omega)
  rw [List.append_assoc, readString,
    readU16_bytesLE16 (s ++ rest) (by omega), hlt]
  simp only [List.length_append, Nat.le_add_right, if_true, List.take_left,
    List.drop_left]

/-- The encoded Request laid out as flat byte segments. -/
theorem encodeRequest_eq (r : Request) :
    encodeRequest r =
      [r.operation % 256] ++
      (bytesLE16 (r.key.length % 65536) ++ r.key) ++
      (bytesLE16 (r.value.length % 65536) ++ r.value) := by
  simp [encodeRequest, writeString_eq, writeU8_eq]

/-- The encoded Response laid out as flat byte segments. -/
theorem encodeResponse_eq (r : Response) :
    encodeResponse r =
      [r.operation % 256] ++ [r.error % 256] ++
      (bytesLE16 (r.value.length % 65536) ++ r.value) := by
  simp [encodeResponse, writeString_eq, writeU8_eq]

theorem readString_bytes_nil (s : Str) (h : s.length ≤ 65535) :
    readString (bytesLE16 (s.length % 65536) ++ s) = some (s, []) := by
  have h2 := readString_bytes s [] h
  simpa using h2

theorem decodeRequest_encodeRequest (r : Request) (hop : r.operation < 256)
    (hk : r.key.length ≤ 65535) (hv : r.value.length ≤ 65535) :
    decodeRequest (encodeRequest r) = some r := by
  rw [encodeRequest_eq, List.append_assoc, List.singleton_append]
  simp only [decodeRequest, readU8_cons, Nat.mod_eq_of_lt hop,
    readString_bytes r.key _ hk, readString_bytes_nil r.value hv]

theorem decodeResponse_encodeResponse (r : Response) (hop : r.operation < 256)
    (he : r.error < 256) (hv : r.value.length ≤ 65535) :
    decodeResponse (encodeResponse r) = some r := by
  rw [encodeResponse_eq, List.append_assoc, List.singleton_append,
    List.singleton_append]
  simp only [decodeResponse, readU8_cons, Nat.mod_eq_of_lt hop,
    Nat.mod_eq_of_lt he, readString_bytes_nil r.value hv]

/-! ## Claim C2 -/

/-- C2: for every Request and every Response whose string fields have
length at most 65,535, the Reader applied to the Writer's output over the
same field sequence reconstructs the original message exactly.  The tag
fields, being `uint8_t` values, are below 256. -/
theorem codec_roundtrip (req : Request) (resp : Response)
    (h1 : req.operation < 256) (h2 : req.key.length ≤ 65535)
    (h3 : req.value.length ≤ 65535) (h4 : resp.operation < 256)
    (h5 : resp.error < 256) (h6 : resp.value.length ≤ 65535) :
    decodeRequest (encodeRequest req) = some req ∧
    decodeResponse (encodeResponse resp) = some resp :=
  ⟨decodeRequest_encodeRequest req h1 h2 h3,
   decodeResponse_encodeResponse resp h4 h5 h6⟩

/-- Witness for `codec_roundtrip` at a concrete Request and Response. -/
theorem codec_roundtrip_witness :
    decodeRequest (encodeRequest ⟨0, [107], [118]⟩) = some ⟨0, [107], [118]⟩ ∧
    decodeResponse (encodeResponse ⟨3, 0, [120]⟩) = some ⟨3, 0, [120]⟩ :=
  codec_roundtrip ⟨0, [107], [118]⟩ ⟨3, 0, [120]⟩
    (by decide) (by decide) (by decide) (by decide) (by decide) (by decide)

/-! ## Claim C3 -/

/-- C3: demonstration of the byte-order bug.  `hton<uint16_t>` compares
`sizeof(T)` — the value 2 for `uint16_t` — against 16, so the `htons`
branch is never taken and the value 258 (= 0x0102) passes through
unswapped, where a real `htons` would yield 513 (= 0x0201).
Consequently the Writer serialises the one-byte string [97] with its
2-byte length in host little-endian order, [1, 0, 97], not in the
big-endian order [0, 1, 97] that the specification states and that the
calls to `htons`/`ntohs` in the dead branches clearly intend. -/
theorem payload_u16_host_order :
    hton16 258 = 258 ∧ ntoh16 258 = 258 ∧ htons16 258 = 513 ∧
    writeString [] [97] = [1, 0, 97] ∧
    writeString [] [97] ≠ [0, 1, 97] := by
  decide

/-! ## Claim C4 -/

theorem writeString_replicate_mod (n b : Nat) (h : n % 65536 = 0) :
    writeString [] (List.replicate n b) = 0 :: 0 :: List.replicate n b := by
  rw [writeString_eq, List.nil_append, List.length_replicate, h]
  rfl

/-- C4 counterexample: for a string of 65,536 bytes the Writer does not
fail; it produces a byte buffer whose length field is
`static_cast<uint16_t>(65536) = 0` followed by all 65,536 bytes. -/
theorem encode_oversize_no_failure_cex :
    65535 < (List.replicate 65536 97 : Str).length ∧
    writeString [] (List.replicate 65536 97) =
      0 :: 0 :: List.replicate 65536 97 := by
  constructor
  · rw [List.length_replicate]
    norm_num
  · exact writeString_replicate_mod 65536 97 rfl

/-- C4 (amended): the Writer never fails.  For a string longer than
65,535 bytes it emits the length reduced modulo 2^16 followed by all the
bytes of the string, so the output has the full 2 + length size and its
length field reads back as `length % 65536`, disagreeing with the number
of bytes that follow. -/
theorem encode_oversize_wraps_length (buf : List Nat) (s : Str)
    (h : 65535 < s.length) :
    (writeString buf s).length = buf.length + 2 + s.length ∧
    readU16 (writeString [] s) = some (s.length % 65536, s) := by
  constructor
  · rw [writeString_eq]
    simp [bytesLE16]
    omega
  · rw [writeString_eq, List.nil_append]
    exact readU16_bytesLE16 s (Nat.mod_lt _ (by norm_num))

/-- Witness for `encode_oversize_wraps_length` at a 65,536-byte string. -/
theorem encode_oversize_wraps_length_witness :
    65535 < (List.replicate 65536 97 : Str).length ∧
    (writeString [] (List.replicate 65536 97)).length = 65538 ∧
    readU16 (writeString [] (List.replicate 65536 97)) =
      some (0, List.replicate 65536 97) := by
  have h := encode_oversize_wraps_length [] (List.replicate 65536 97)
    (by rw [List.length_replicate]; norm_num)
  refine ⟨by rw [List.length_replicate]; norm_num, ?_, ?_⟩
  · rw [h.1, List.length_replicate]
    rfl
  · rw [h.2, List.length_replicate]

/-! ## Claim C5 -/

/-- C5 counterexample: the byte 7 is not a declared `Operation`
enumerator (they are 0..3), yet decoding the five-byte buffer
[7, 0, 0, 0, 0] does not fail — it returns the Request with operation
tag 7, empty key and empty value.  The Reader performs no tag
validation, and the source's `Error` enum has no TRUNCATED,
INVALID_OPERATION or INVALID_ERROR enumerators at all. -/
theorem decode_unknown_tag_cex :
    operationOfTag 7 = none ∧
    decodeRequest [7, 0, 0, 0, 0] = some ⟨7, [], []⟩ := by
  decide

/-- C5 (amended): decode performs no validation of tag bytes.  For every
byte that is not a declared `Operation` (resp. `Error`) enumerator, a
well-formed buffer carrying it decodes successfully with the raw byte
stored in the message's tag field; no INVALID_OPERATION or INVALID_ERROR
failure exists.  (A buffer ending mid-field makes the source read out of
bounds — undefined behaviour — rather than fail with TRUNCATED, which is
likewise not a representable error.) -/
theorem decode_accepts_unknown_tags (b e bop : Nat) (k v : Str)
    (hb : b < 256) (hbx : operationOfTag b = none)
    (he : e < 256) (hex : errorOfTag e = none)
    (hbop : bop < 256)
    (hk : k.length ≤ 65535) (hv : v.length ≤ 65535) :
    decodeRequest (encodeRequest ⟨b, k, v⟩) = some ⟨b, k, v⟩ ∧
    decodeResponse (encodeResponse ⟨bop, e, v⟩) = some ⟨bop, e, v⟩ :=
  ⟨decodeRequest_encodeRequest ⟨b, k, v⟩ hb hk hv,
   decodeResponse_encodeResponse ⟨bop, e, v⟩ hbop he hv⟩

/-- Witness for `decode_accepts_unknown_tags` at the undeclared operation
tag 7 and undeclared error tag 9. -/
theorem decode_accepts_unknown_tags_witness :
    decodeRequest (encodeRequest ⟨7, [], [118]⟩) = some ⟨7, [], [118]⟩ ∧
    decodeResponse (encodeResponse ⟨0, 9, [118]⟩) = some ⟨0, 9, [118]⟩ :=
  decode_accepts_unknown_tags 7 9 0 [] [118]
    (by decide) (by decide) (by decide) (by decide) (by decide)
    (by decide) (by decide)

/-! ## Claim C8 -/

/-- C8: `Client::send` validates the request before doing anything else.
A key longer than `MAX_KEY_LENGTH` makes it throw the key-length
exception — and a valid key with a value longer than `MAX_VALUE_LENGTH`
the value-length exception — with the Client state (remembered endpoint
and connection flag) unchanged and an empty socket trace: no connect
attempt, no write, no read, so the server is never contacted. -/
theorem client_send_validates_first (st : ClientState) (ep : Nat)
    (req : Request) (net : NetBehavior) :
    (MAX_KEY_LENGTH < req.key.length →
      send st ep req net =
        (st, [], Except.error SendException.invalidKeyLength)) ∧
    (req.key.length ≤ MAX_KEY_LENGTH → MAX_VALUE_LENGTH < req.value.length →
      send st ep req net =
        (st, [], Except.error SendException.invalidValueLength)) := by
  constructor
  · intro h
    have hkey : ¬ (req.key.length ≤ MAX_KEY_LENGTH) := by omega
    simp [send, isValidKey, hkey]
  · intro h1 h2
    have hval : ¬ (req.value.length ≤ MAX_VALUE_LENGTH) := by omega
    simp [send, isValidKey, isValidValue, h1, hval]

/-- Witness for `client_send_validates_first`: a 1025-byte key and a
1,048,577-byte value, each rejected locally with the state untouched. -/
theorem client_send_validates_first_witness :
    send ⟨0, false⟩ 5 ⟨0, List.replicate 1025 97, []⟩ ⟨true, true, true⟩ =
      (⟨0, false⟩, [], Except.error SendException.invalidKeyLength) ∧
    send ⟨0, false⟩ 5 ⟨0, [107], List.replicate 1048577 97⟩ ⟨true, true, true⟩ =
      (⟨0, false⟩, [], Except.error SendException.invalidValueLength) :=
  ⟨(client_send_validates_first ⟨0, false⟩ 5 ⟨0, List.replicate 1025 97, []⟩
      ⟨true, true, true⟩).1
      (by rw [show (⟨0, List.replicate 1025 97, []⟩ : Request).key =
          List.replicate 1025 97 from rfl, List.length_replicate]
          norm_num [MAX_KEY_LENGTH]),
   (client_send_validates_first ⟨0, false⟩ 5 ⟨0, [107], List.replicate 1048577 97⟩
      ⟨true, true, true⟩).2 (by norm_num [MAX_KEY_LENGTH])
      (by rw [show (⟨0, [107], List.replicate 1048577 97⟩ : Request).value =
          List.replicate 1048577 97 from rfl, List.length_replicate]
          norm_num [MAX_VALUE_LENGTH])⟩

/-! ## Claim C9 -/

/-- C9: `Stats::update(op, err)` increments (modulo 2^64, the counters
being `size_t`) the failed counter of op exactly when err is not NONE and
the successful counter of op otherwise, touching no other operation's
counters; it increments the total-items counter exactly on a successful
INSERT, decrements it (with `size_t` wraparound) exactly on a successful
DELETE, and leaves it unchanged for every UPDATE and GET call and every
failed call. -/
theorem stats_update_spec (st : StatsState) (op : Operation) (err : Error) :
    (err ≠ Error.NONE →
      (statsUpdate st op err).counters op =
        ((st.counters op).1, ((st.counters op).2 + 1) % U64)) ∧
    (err = Error.NONE →
      (statsUpdate st op err).counters op =
        (((st.counters op).1 + 1) % U64, (st.counters op).2)) ∧
    (∀ o, o ≠ op → (statsUpdate st op err).counters o = st.counters o) ∧
    (op = Operation.INSERT → err = Error.NONE →
      (statsUpdate st op err).totalItemsInDb =
        (st.totalItemsInDb + 1) % U64) ∧
    (op = Operation.DELETE → err = Error.NONE →
      (statsUpdate st op err).totalItemsInDb =
        (st.totalItemsInDb + (U64 - 1)) % U64) ∧
    (op = Operation.UPDATE ∨ op = Operation.GET ∨ err ≠ Error.NONE →
      (statsUpdate st op err).totalItemsInDb = st.totalItemsInDb) := by
  refine ⟨?_, ?_, ?_, ?_, ?_, ?_⟩
  · intro h
    simp [statsUpdate, h]
  · intro h
    subst h
    simp [statsUpdate]
  · intro o ho
    simp [statsUpdate, ho]
  · intro h1 h2
    subst h1; subst h2
    simp [statsUpdate]
  · intro h1 h2
    subst h1; subst h2
    simp [statsUpdate]
  · intro h
    rcases h with h | h | h
    · subst h; simp [statsUpdate]
    · subst h; simp [statsUpdate]
    · simp [statsUpdate, h]

/-- Witness for `stats_update_spec` on the all-zero Stats state: a
successful INSERT raises total-items to 1 and its successful counter to
1; a failed GET raises only its failed counter; a successful DELETE
wraps total-items to 2^64 − 1; a successful UPDATE leaves total-items
alone. -/
theorem stats_update_spec_witness :
    (statsUpdate stats0 Operation.INSERT Error.NONE).totalItemsInDb = 1 ∧
    (statsUpdate stats0 Operation.INSERT Error.NONE).counters
      Operation.INSERT = (1, 0) ∧
    (statsUpdate stats0 Operation.GET Error.GET_KEY_NOT_FOUND).counters
      Operation.GET = (0, 1) ∧
    (statsUpdate stats0 Operation.DELETE Error.NONE).totalItemsInDb =
      U64 - 1 ∧
    (statsUpdate stats0 Operation.UPDATE Error.NONE).totalItemsInDb = 0 := by
  have hI := stats_update_spec stats0 Operation.INSERT Error.NONE
  have hG := stats_update_spec stats0 Operation.GET Error.GET_KEY_NOT_FOUND
  have hD := stats_update_spec stats0 Operation.DELETE Error.NONE
  have hU := stats_update_spec stats0 Operation.UPDATE Error.NONE
  refine ⟨?_, ?_, ?_, ?_, ?_⟩
  · have h := hI.2.2.2.1 rfl rfl
    rw [h]
    norm_num [stats0, U64]
  · have h := hI.2.1 rfl
    rw [h]
    norm_num [stats0, U64]
  · have h := hG.1 (by decide)
    rw [h]
    norm_num [stats0, U64]
  · have h := hD.2.2.2.2.1 rfl rfl
    rw [h]
    norm_num [stats0, U64]
  · exact hU.2.2.2.2.2 (Or.inl rfl)

end DatabaseModel
